import Mathlib

/-!
# Verification of the node-crawler admission-control core

Shallow embedding of the repository's rate limiter (`src/rateLimiter/rateLimiter.ts`,
provided as `src/unnamed/part_000`) and crawler pipeline (`src/crawler.ts`),
with theorems settling the frozen claims about the specification.

JavaScript numbers that only ever flow through `Number.isInteger` tests and
integer arithmetic are modelled as `Int`; a value that may be a non-integer
double or `undefined` is modelled by `JsNumber`. Timestamps (`Date.now()`)
are modelled as `Int` milliseconds.
-/

namespace NodeCrawler

/-- A JavaScript number (or absent value) as seen by `Number.isInteger`:
either an integer, some non-integer double (NaN, 2.5, Infinity, ...),
or `undefined`. -/
inductive JsNumber where
  | int (n : Int)
  | nonInt
  | undef
deriving DecidableEq, Repr

/-- Embedding of `Number.isInteger`. -/
def JsNumber.isInteger : JsNumber → Bool
  | .int _ => true
  | _ => false

/-! ## RateLimiter (src/unnamed/part_000)

The `multiPriorityQueue` (`src/lib`, not present under `src/`) is abstracted
to its size: for the counting/pacing claims only `size()` matters, and
`enqueue`/`dequeue` change it by one. A limiter's optional `Cluster`
back-reference only changes *which* queue a dispatched task comes from, so
`waiting` stands for the total number of tasks `hasWaitingClients()` sees. -/

/-- Whether the `RateLimiter` constructor throws (lines 25-27 of the source):
`!Number.isInteger(maxConcurrency) || !Number.isInteger(rateLimit) ||
!Number.isInteger(priorityCount)`. Note the check tests only integrality,
never positivity, while the thrown message reads "maxConcurrency, rateLimit
and priorityCount must be positive integers". -/
def ctorThrows (maxConcurrency rateLimit priorityCount : JsNumber) : Bool :=
  !(maxConcurrency.isInteger && rateLimit.isInteger && priorityCount.isInteger)

/-- Field `_defaultPriority` as assigned in the constructor (lines 30-32):
`Number.isInteger(defaultPriority) ? defaultPriority : Math.floor(priorityCount / 2)`.
The subsequent line 33 computes a clamp of the default but discards the
result (an expression statement with no assignment), so it is a no-op and is
embedded as such. `Math.floor` on the quotient of integers is `Int.fdiv`. -/
def ctorDefaultPriority (priorityCount : Int) (defaultPriority : JsNumber) : Int :=
  match defaultPriority with
  | .int n => n
  | _ => Int.fdiv priorityCount 2

/-- Lines 56-57 of `submit`: take the bare number or the object's `priority`
field, then substitute `_defaultPriority` unless it is an integer.
`Sum.inl` is the bare-number call, `Sum.inr` the `{ priority }` object. -/
def derivedPriority (defaultPriority : Int) (options : Sum JsNumber JsNumber) : Int :=
  let priority : JsNumber :=
    match options with
    | .inl n => n
    | .inr p => p
  match priority with
  | .int n => n
  | _ => defaultPriority

/-- Line 58 of `submit`, the priority actually handed to `enqueue`:
`validPriority > this._priorityCount - 1 ? this._priorityCount - 1 : validPriority`. -/
def submitPriority (priorityCount defaultPriority : Int)
    (options : Sum JsNumber JsNumber) : Int :=
  let validPriority := derivedPriority defaultPriority options
  if validPriority > priorityCount - 1 then priorityCount - 1 else validPriority

/-- The mutable state of one `RateLimiter`, plus two ghost fields:
`pending` counts dispatched tasks whose `done` has not yet run, and
`lastDispatch` records the scheduled start time (`now + wait`) of the most
recent dispatch fired by `_tryToRun`. -/
structure LimiterState where
  maxConcurrency : Int
  rateLimit : Int
  nextRequestTime : Int
  runningTasksNumber : Int
  waiting : Nat
  pending : Nat
  lastDispatch : Option Int
deriving DecidableEq, Repr

/-- The constructor's state initialisation (lines 28-39): zero running
tasks, empty queue, `nextRequestTime = Date.now()`. -/
def initLimiter (maxConcurrency rateLimit now : Int) : LimiterState :=
  { maxConcurrency := maxConcurrency
    rateLimit := rateLimit
    nextRequestTime := now
    runningTasksNumber := 0
    waiting := 0
    pending := 0
    lastDispatch := none }

/-- Method `_tryToRun` (lines 63-78), invoked at wall-clock time `now`:
if `runningTasksNumber < maxConcurrency` and `hasWaitingClients()`,
increment the running count, compute `wait = max(nextRequestTime - now, 0)`,
advance `nextRequestTime = now + wait + rateLimit`, and dequeue the task,
scheduling it to start at `now + wait`. -/
def tryToRun (s : LimiterState) (now : Int) : LimiterState :=
  if s.runningTasksNumber < s.maxConcurrency ∧ 0 < s.waiting then
    let wait := max (s.nextRequestTime - now) 0
    { s with
      runningTasksNumber := s.runningTasksNumber + 1
      nextRequestTime := now + wait + s.rateLimit
      waiting := s.waiting - 1
      pending := s.pending + 1
      lastDispatch := some (now + wait) }
  else s

/-- Method `submit` (lines 55-61) at time `now`: enqueue, then `_tryToRun`. -/
def submitStep (s : LimiterState) (now : Int) : LimiterState :=
  tryToRun { s with waiting := s.waiting + 1 } now

/-- The `done` callback handed to a dispatched task (lines 71-74), run at
time `now`: decrement the running count, then `_tryToRun`. -/
def releaseStep (s : LimiterState) (now : Int) : LimiterState :=
  tryToRun { s with
    runningTasksNumber := s.runningTasksNumber - 1
    pending := s.pending - 1 } now

/-- One externally visible step of a limiter. A `release` step requires a
dispatched-but-unfinished task (`0 < pending`): this is the contract that
each dispatched task invokes its `done` handle exactly once. -/
inductive LStep : LimiterState → LimiterState → Prop where
  | submit (s : LimiterState) (now : Int) : LStep s (submitStep s now)
  | release (s : LimiterState) (now : Int) (h : 0 < s.pending) :
      LStep s (releaseStep s now)

/-- States reachable from `s₀` by limiter steps. -/
inductive LReach (s₀ : LimiterState) : LimiterState → Prop where
  | refl : LReach s₀ s₀
  | step {s s' : LimiterState} : LReach s₀ s → LStep s s' → LReach s₀ s'

/-! ## Crawler pipeline (src/crawler.ts)

`_execute` is embedded as the ordered trace of externally visible actions it
performs for one attempt, and the stream monitor of `streamRequest` as an
explicit event-processing state machine. -/

/-- The errors `_execute`/`streamRequest` construct, by `code` and the
numbers interpolated into the message. `userError` is an error supplied by
the caller's `preRequest` hook, identified by an opaque id. -/
inductive JsError where
  | fileTooLargeHead (fileSize maxSize : Int)
  | missingContentLengthHead
  | fileTooLargeResponseHeader (fileSize maxSize : Int)
  | fileTooLargeStream (received maxSize : Int)
  | streamTransportError
  | userError (id : Nat)
deriving DecidableEq, Repr

/-- The message strings built at the error construction sites
(lines 165, 171, 252, 269 of `src/crawler.ts`). -/
def errorMessage : JsError → String
  | .fileTooLargeHead n m =>
      "File size " ++ toString n ++
        " (from HEAD Content-Length) exceeds limit of " ++ toString m ++ " bytes"
  | .missingContentLengthHead =>
      "Content-Length header missing in HEAD response and rejectOnMissingContentLength is true"
  | .fileTooLargeResponseHeader n m =>
      "File size " ++ toString n ++
        " (from GET Content-Length) exceeds limit of " ++ toString m ++ " bytes"
  | .fileTooLargeStream n m =>
      "Downloaded data size (" ++ toString n ++ " bytes) exceeds limit of " ++
        toString m ++ " bytes"
  | .streamTransportError => "stream error"
  | .userError _ => "user error"

/-- A `content-length` header as the guard reads it: `absent` also covers an
empty string (falsy under `if (contentLength)`), `invalid` a present value
`parseInt` turns into `NaN`, `value n` a parseable one. -/
inductive ContentLength where
  | absent
  | invalid
  | value (n : Int)
deriving DecidableEq, Repr

/-- Outcome of the HEAD probe: `got` resolved with headers, or threw. -/
inductive HeadOutcome where
  | success (contentLength : ContentLength)
  | failure
deriving DecidableEq, Repr

/-- The HEAD-phase decision (lines 148-193): run only when a positive
ceiling is configured. On probe success, reject when a parseable declared
length exceeds the ceiling, or when it is absent and
`rejectOnMissingContentLength` is set; on probe failure (the `catch`
branch), log and fall through — fail open. `some e` means
`preliminaryCheckPassed = false` with `checkError = e`. -/
def headCheck (maxSizeBytes : Int) (rejectOnMissing : Bool)
    (outcome : HeadOutcome) : Option JsError :=
  match outcome with
  | .success cl =>
    match cl with
    | .value n =>
        if n > maxSizeBytes then some (.fileTooLargeHead n maxSizeBytes) else none
    | .invalid => none
    | .absent => if rejectOnMissing then some .missingContentLengthHead else none
  | .failure => none

/-- Behaviour of a configured `preRequest` hook: invoke the continuation
with an error, or with no error. -/
inductive PreBehavior where
  | abortWith (id : Nat)
  | proceed
deriving DecidableEq, Repr

/-- Externally visible actions of one `_execute` attempt, in order. -/
inductive ExecAction where
  | headProbe
  | preRequestCall
  | transferStart
  | handlerCall (error : Option JsError)
deriving DecidableEq, Repr

/-- Guard `typeof maxSizeBytes === 'number' && maxSizeBytes > 0` (lines 144, 320). -/
def sizeActive : Option Int → Bool
  | some m => decide (0 < m)
  | none => false

/-- Lines 322-348: after the size-check phase, invoke the `preRequest` hook
when configured; the hook aborting routes its error to `_handler` and
`requestFn` is never called; otherwise the chosen request function starts
the transfer. -/
def afterGuardTrace (pre : Option PreBehavior) : List ExecAction :=
  match pre with
  | some (.abortWith id) =>
      [.preRequestCall, .handlerCall (some (.userError id))]
  | some .proceed => [.preRequestCall, .transferStart]
  | none => [.transferStart]

/-- The ordered action trace of one `_execute` attempt (lines 116-348): the
size-check block runs first — issuing the HEAD probe and, on rejection,
returning `_handler(checkError, options)` before any transfer or hook — and
only then comes the `preRequest`/request phase. -/
def executeTrace (maxSizeBytes : Option Int) (rejectOnMissing : Bool)
    (head : HeadOutcome) (pre : Option PreBehavior) : List ExecAction :=
  if sizeActive maxSizeBytes then
    match maxSizeBytes with
    | some m =>
      ExecAction.headProbe ::
        (match headCheck m rejectOnMissing head with
         | some e => [.handlerCall (some e)]
         | none => afterGuardTrace pre)
    | none => afterGuardTrace pre
  else afterGuardTrace pre

/-! ### The stream monitor of `streamRequest` (lines 215-316) -/

/-- Events `got.stream` emits, as the handlers observe them: a chunk is
modelled by its byte count, `progress` by its `transferred` total. -/
inductive StreamEvent where
  | response (contentLength : ContentLength) (status : Int)
  | data (chunk : Nat)
  | progress (transferred : Int)
  | ended
  | failed
deriving DecidableEq, Repr

/-- One invocation of `resolve(this._handler(...))` from the stream logic:
either an error report or the assembled success response (body byte count,
captured headers and status). -/
inductive StreamReport where
  | errorReport (e : JsError)
  | successReport (bodyBytes : Nat) (headers : Option ContentLength)
      (status : Option Int)
deriving DecidableEq, Repr

/-- The local state of `streamRequest`: accumulated chunk sizes and byte
total, captured response metadata, the single-fire `requestAborted` flag,
whether `stream.destroy` was called, and every `_handler` invocation made. -/
structure StreamState where
  receivedBytes : Nat
  dataChunks : List Nat
  responseHeaders : Option ContentLength
  statusCode : Option Int
  requestAborted : Bool
  destroyed : Bool
  reports : List StreamReport
deriving DecidableEq, Repr

/-- The state at `got.stream(gotOptions)` (lines 221-225). -/
def initStream : StreamState :=
  { receivedBytes := 0
    dataChunks := []
    responseHeaders := none
    statusCode := none
    requestAborted := false
    destroyed := false
    reports := [] }

/-- Helper `abortRequest` (lines 230-240): guarded by the single-fire flag; the
first call sets the flag, destroys the stream and resolves with
`_handler(error, options)`; later calls do nothing. -/
def abortRequest (s : StreamState) (e : JsError) : StreamState :=
  if s.requestAborted then s
  else
    { s with
      requestAborted := true
      destroyed := true
      reports := s.reports ++ [.errorReport e] }

/-- One stream event, processed as the handlers at lines 242-315 do.
The `response` handler has no aborted-guard (it re-checks the declared
length and may call `abortRequest`, itself guarded); `data`, `progress`,
`ended` and `failed` all return immediately once `requestAborted` is set. -/
def processEvent (maxSizeBytes : Int) (s : StreamState) :
    StreamEvent → StreamState
  | .response cl status =>
    let s' := { s with responseHeaders := some cl, statusCode := some status }
    match cl with
    | .value n =>
        if n > maxSizeBytes then
          abortRequest s' (.fileTooLargeResponseHeader n maxSizeBytes)
        else s'
    | _ => s'
  | .data chunk =>
    if s.requestAborted then s
    else
      let s' := { s with
        receivedBytes := s.receivedBytes + chunk
        dataChunks := s.dataChunks ++ [chunk] }
      if (s'.receivedBytes : Int) > maxSizeBytes then
        abortRequest s' (.fileTooLargeStream s'.receivedBytes maxSizeBytes)
      else s'
  | .progress transferred =>
    if s.requestAborted then s
    else if transferred > maxSizeBytes then
      abortRequest s (.fileTooLargeStream transferred maxSizeBytes)
    else s
  | .ended =>
    if s.requestAborted then s
    else
      { s with
        reports := s.reports ++
          [.successReport s.receivedBytes s.responseHeaders s.statusCode] }
  | .failed =>
    if s.requestAborted then s
    else
      { s with
        requestAborted := true
        reports := s.reports ++ [.errorReport .streamTransportError] }

/-- Fold a sequence of stream events. -/
def processEvents (maxSizeBytes : Int) (s : StreamState)
    (evs : List StreamEvent) : StreamState :=
  evs.foldl (processEvent maxSizeBytes) s

/-- Events whose handler begins with `if (requestAborted) return;`. -/
def ignoredWhenAborted : StreamEvent → Bool
  | .response _ _ => false
  | _ => true

/-- Events a Node readable stream may emit before its terminal event. -/
def nonTerminal : StreamEvent → Bool
  | .ended => false
  | .failed => false
  | _ => true

/-- A stream event sequence as the transport emits it: `ended`/`failed`
occur only as the final event. -/
def wellFormedStream : List StreamEvent → Bool
  | [] => true
  | [_] => true
  | ev :: evs => nonTerminal ev && wellFormedStream evs

/-- Invariant of the stream monitor while the stream is still live: until
the single-fire flag is set no `_handler` call has been made, and never
more than one has. -/
def StreamInv (s : StreamState) : Prop :=
  (s.requestAborted = false → s.reports = []) ∧ s.reports.length ≤ 1

/-- Counting invariant of a limiter: the running count equals the number of
dispatched tasks whose `done` has not yet run, and stays within the
concurrency bound. -/
def LimiterInv (s : LimiterState) : Prop :=
  s.runningTasksNumber = (s.pending : Int) ∧
    s.runningTasksNumber ≤ s.maxConcurrency

/-- Pacing invariant of a limiter with configured rate `rl`: the next
dispatch may start no earlier than `rl` after the last scheduled start. -/
def PacingInv (rl : Int) (s : LimiterState) : Prop :=
  s.rateLimit = rl ∧
    ∀ t, s.lastDispatch = some t → t + rl ≤ s.nextRequestTime

/-! ### `_handler` (lines 351-422) and `send` (lines 467-474) -/

/-- What one `_handler` invocation did: whether it invoked the caller's
callback (and with which error), whether it scheduled a retry (decremented
budget, `setTimeout(..., retryInterval)` re-invoking `_execute`), the
budget after the call, whether it invoked the `release` handle, and whether
it threw (error with no callback configured). -/
structure HandlerOutcome where
  invokedCallback : Bool
  callbackError : Option JsError
  scheduledRetry : Bool
  retriesAfter : Option Int
  waitedMs : Option Int
  invokedRelease : Bool
  threw : Bool
deriving DecidableEq, Repr

/-- Truthiness of `options.retries && options.retries > 0`: an absent budget is falsy,
`0` is falsy, and otherwise the comparison decides. -/
def truthyRetries : Option Int → Bool
  | none => false
  | some r => decide (0 < r)

/-- The error path of `_handler` (lines 352-374) for any error — transport
or size-guard alike: with budget left, decrement it in place, wait
`retryInterval`, re-invoke `_execute`, and return without touching the
callback; with no budget, hand the error to the callback (passing `release`
as an argument, never invoking it), or throw when none is configured. -/
def handlerOnError (e : JsError) (retries : Option Int)
    (retryInterval : Option Int) (hasCallback : Bool) : HandlerOutcome :=
  if truthyRetries retries then
    { invokedCallback := false
      callbackError := none
      scheduledRetry := true
      retriesAfter := retries.map (· - 1)
      waitedMs := retryInterval
      invokedRelease := false
      threw := false }
  else if hasCallback then
    { invokedCallback := true
      callbackError := some e
      scheduledRetry := false
      retriesAfter := retries
      waitedMs := none
      invokedRelease := false
      threw := false }
  else
    { invokedCallback := false
      callbackError := none
      scheduledRetry := false
      retriesAfter := retries
      waitedMs := none
      invokedRelease := false
      threw := true }

/-- The success path of `_handler` (lines 376-421): the callback receives
`(null, response, options.release)`; `release` is passed, never invoked. -/
def handlerOnSuccess (hasCallback : Bool) : HandlerOutcome :=
  if hasCallback then
    { invokedCallback := true
      callbackError := none
      scheduledRetry := false
      retriesAfter := none
      waitedMs := none
      invokedRelease := false
      threw := false }
  else
    { invokedCallback := false
      callbackError := none
      scheduledRetry := false
      retriesAfter := none
      waitedMs := none
      invokedRelease := false
      threw := false }

/-- A request whose every attempt fails with `e`, starting from retry
budget `budget`: each `_handler` call that schedules a retry re-invokes
`_execute` with the decremented budget. Returns the number of `_execute`
attempts made and the final `_handler` outcome. -/
def failingRun (e : JsError) (retryInterval : Option Int)
    (hasCallback : Bool) : Nat → Nat × HandlerOutcome
  | 0 => (1, handlerOnError e (some 0) retryInterval hasCallback)
  | budget + 1 =>
    let o := handlerOnError e (some ((budget : Int) + 1)) retryInterval hasCallback
    if o.scheduledRetry then
      let rest := failingRun e retryInterval hasCallback budget
      (rest.1 + 1, rest.2)
    else (1, o)

/-- The option fields of `send` that the claims touch; `none` is an option
the caller did not set (`undefined`). -/
structure SendOpts where
  retries : Option Int
  preRequest : Option PreBehavior
  skipEventRequest : Option Bool
deriving DecidableEq, Repr

/-- Modelled from the spec: `setDefaults(options, this.options)` comes from
`src/lib/utils.js`, which is not among the provided sources. Per the spec's
description of option handling (an options bag whose recognized options
receive defaults), it fills each option the caller left `undefined` with
the crawler-level value and leaves set options untouched. -/
def setDefaultsOpts (o defaults : SendOpts) : SendOpts :=
  { retries := match o.retries with | some r => some r | none => defaults.retries
    preRequest := match o.preRequest with | some p => some p | none => defaults.preRequest
    skipEventRequest := match o.skipEventRequest with
      | some b => some b
      | none => defaults.skipEventRequest }

/-- Method `send` (lines 467-474) as a transform on the options it passes to
`_execute`: `options.retries = options.retries ?? 0`, then
`setDefaults(options, this.options)`, then `skipEventRequest` coerced to a
boolean defaulting to `true`, then `delete options.preRequest`. -/
def sendTransform (user globals : SendOpts) : SendOpts :=
  let o1 : SendOpts := { user with retries := some (user.retries.getD 0) }
  let o2 := setDefaultsOpts o1 globals
  let o3 : SendOpts := { o2 with
    skipEventRequest := some (match o2.skipEventRequest with
      | some b => b
      | none => true) }
  { o3 with preRequest := none }

/-! ## Theorems -/

/-- Method `_tryToRun` preserves the counting invariant: it increments the running
count only under the guard `runningTasksNumber < maxConcurrency` with a
waiting task present. -/
theorem tryToRun_limiterInv (s : LimiterState) (now : Int)
    (h : LimiterInv s) : LimiterInv (tryToRun s now) := by
  unfold tryToRun
  split
  · rename_i hg
    refine ⟨?_, ?_⟩
    · simp only [LimiterInv] at h
      push_cast
      omega
    · simpa using hg.1
  · exact h

/-- Limiter steps preserve the counting invariant; the `release` step uses
the contract that `done` runs once per dispatched task (`0 < pending`). -/
theorem lstep_limiterInv {s s' : LimiterState} (hs : LStep s s')
    (h : LimiterInv s) : LimiterInv s' := by
  cases hs with
  | submit now =>
    apply tryToRun_limiterInv
    obtain ⟨h1, h2⟩ := h
    exact ⟨h1, h2⟩
  | release now hp =>
    apply tryToRun_limiterInv
    obtain ⟨h1, h2⟩ := h
    constructor
    · show s.runningTasksNumber - 1 = ((s.pending - 1 : Nat) : Int)
      rw [h1, Nat.cast_sub hp]
      ring
    · show s.runningTasksNumber - 1 ≤ s.maxConcurrency
      omega

/-- The counting invariant holds in every reachable state, provided the
limiter was constructed with a non-negative concurrency bound. -/
theorem lreach_limiterInv {mc rl t0 : Int} (hmc : 0 ≤ mc)
    {s : LimiterState} (h : LReach (initLimiter mc rl t0) s) :
    LimiterInv s := by
  induction h with
  | refl => exact ⟨by simp [initLimiter], by simpa [initLimiter] using hmc⟩
  | step _ hstep ih => exact lstep_limiterInv hstep ih

/-- C1: for every limiter constructed with a positive `maxConcurrency` and
every pattern of submissions and releases — each dispatched task invoking
its `done` handle exactly once — the running count satisfies
`0 ≤ runningTasksNumber ≤ maxConcurrency` after every step: `_tryToRun`
increments the count only when it is below `maxConcurrency` and a waiting
task exists, and `done` decrements it once per dispatched task. -/
theorem runningCount_bounded (mc rl t0 : Int) (hmc : 0 < mc)
    (s : LimiterState) (h : LReach (initLimiter mc rl t0) s) :
    0 ≤ s.runningTasksNumber ∧ s.runningTasksNumber ≤ s.maxConcurrency := by
  obtain ⟨h1, h2⟩ := lreach_limiterInv (le_of_lt hmc) h
  exact ⟨h1 ▸ Int.natCast_nonneg s.pending, h2⟩

/-- Witness for `runningCount_bounded`: a concrete limiter after a
dispatching submit step. -/
theorem runningCount_bounded_witness :
    (0:Int) < 2 ∧
      (0 ≤ (submitStep (initLimiter 2 5 0) 0).runningTasksNumber ∧
        (submitStep (initLimiter 2 5 0) 0).runningTasksNumber ≤
          (submitStep (initLimiter 2 5 0) 0).maxConcurrency) :=
  ⟨by decide,
    runningCount_bounded 2 5 0 (by decide) _
      (LReach.step LReach.refl (LStep.submit _ 0))⟩

/-- Method `_tryToRun` preserves the pacing invariant: when it dispatches, the
scheduled start is `now + wait` and `nextRequestTime` advances to
`now + wait + rateLimit`. -/
theorem tryToRun_pacingInv (rl : Int) (s : LimiterState) (now : Int)
    (h : PacingInv rl s) : PacingInv rl (tryToRun s now) := by
  unfold tryToRun
  split
  · refine ⟨h.1, ?_⟩
    intro t ht
    simp only [Option.some.injEq] at ht
    subst ht
    simp [h.1]
  · exact h

/-- Limiter steps preserve the pacing invariant. -/
theorem lstep_pacingInv {rl : Int} {s s' : LimiterState} (hs : LStep s s')
    (h : PacingInv rl s) : PacingInv rl s' := by
  cases hs with
  | submit now => exact tryToRun_pacingInv rl _ now ⟨h.1, h.2⟩
  | release now hp => exact tryToRun_pacingInv rl _ now ⟨h.1, h.2⟩

/-- The pacing invariant holds in every reachable state. -/
theorem lreach_pacingInv {mc rl t0 : Int} {s : LimiterState}
    (h : LReach (initLimiter mc rl t0) s) : PacingInv rl s := by
  induction h with
  | refl => exact ⟨rfl, by intro t ht; simp [initLimiter] at ht⟩
  | step _ hstep ih => exact lstep_pacingInv hstep ih

/-- Spacing and monotonicity of one `_tryToRun` call, given the pacing
invariant. -/
theorem tryToRun_spacing (rl : Int) (s : LimiterState) (now : Int)
    (hrl : 0 < rl) (h : PacingInv rl s) :
    s.nextRequestTime ≤ (tryToRun s now).nextRequestTime ∧
      ∀ t u, s.lastDispatch = some t →
        (tryToRun s now).lastDispatch = some u → u = t ∨ t + rl ≤ u := by
  unfold tryToRun
  split
  · constructor
    · show s.nextRequestTime ≤ now + max (s.nextRequestTime - now) 0 + s.rateLimit
      have h1 := le_max_left (s.nextRequestTime - now) (0 : Int)
      rw [h.1]
      omega
    · intro t u ht hu
      simp only [Option.some.injEq] at hu
      right
      have h2 := h.2 t ht
      have h1 := le_max_left (s.nextRequestTime - now) (0 : Int)
      omega
  · constructor
    · exact le_refl _
    · intro t u ht hu
      rw [ht] at hu
      exact Or.inl (Option.some.inj hu).symm

/-- C4: with `rateLimit = R > 0`, on any limiter step `nextRequestTime`
is non-decreasing, and whenever a step fires a new dispatch its scheduled
start `u` is at least `R` after the previous scheduled start `t` (a step
that does not dispatch leaves the last start unchanged, `u = t`): each
dispatch computes `wait = max(nextRequestTime - now, 0)`, starts at
`now + wait`, and advances `nextRequestTime = now + wait + rateLimit`. -/
theorem dispatch_spacing (mc rl t0 : Int) (hrl : 0 < rl)
    (s s' : LimiterState) (hreach : LReach (initLimiter mc rl t0) s)
    (hstep : LStep s s') :
    s.nextRequestTime ≤ s'.nextRequestTime ∧
      ∀ t u, s.lastDispatch = some t → s'.lastDispatch = some u →
        u = t ∨ t + rl ≤ u := by
  have hp := lreach_pacingInv hreach
  cases hstep with
  | submit now =>
    exact tryToRun_spacing rl { s with waiting := s.waiting + 1 } now hrl
      ⟨hp.1, hp.2⟩
  | release now hpend =>
    exact tryToRun_spacing rl
      { s with runningTasksNumber := s.runningTasksNumber - 1
               pending := s.pending - 1 } now hrl ⟨hp.1, hp.2⟩

/-- Witness for `dispatch_spacing`: a limiter with rate 5 dispatches at
time 0 and again immediately after; the second scheduled start is 5, which
is at least 5 after the first start 0, and `nextRequestTime` went from 5
to 10. -/
theorem dispatch_spacing_witness :
    (0:Int) < 5 ∧
      (submitStep (initLimiter 2 5 0) 0).nextRequestTime ≤
        (submitStep (submitStep (initLimiter 2 5 0) 0) 0).nextRequestTime ∧
      ((5:Int) = 0 ∨ (0:Int) + 5 ≤ 5) := by
  have h := dispatch_spacing 2 5 0 (by decide)
    (submitStep (initLimiter 2 5 0) 0)
    (submitStep (submitStep (initLimiter 2 5 0) 0) 0)
    (LReach.step LReach.refl (LStep.submit _ 0)) (LStep.submit _ 0)
  exact ⟨by decide, h.1, h.2 0 5 (by decide) (by decide)⟩

/-- C3 counterexample: with 10 priority levels and default priority 5, a
supplied integer priority of -5 is enqueued as -5 — outside `[0, 9]` — so
out-of-range priorities below 0 are not clamped into `[0, levels-1]`. -/
theorem submitPriority_no_lower_clamp :
    submitPriority 10 5 (Sum.inl (JsNumber.int (-5))) = -5 ∧
      ¬(0 ≤ submitPriority 10 5 (Sum.inl (JsNumber.int (-5)))) := by decide

/-- C3 amended: the priority used for enqueueing is the configured default
when the supplied priority is absent or not an integer and otherwise the
supplied priority, clamped only from above to `levels - 1`; it therefore
always lies at or below `levels - 1` (when `levels ≥ 1`), and lies in
`[0, levels-1]` exactly when the derived priority is non-negative. -/
theorem submitPriority_clamped_above (priorityCount defaultPriority : Int)
    (options : Sum JsNumber JsNumber) (h : 1 ≤ priorityCount) :
    submitPriority priorityCount defaultPriority options ≤ priorityCount - 1 ∧
      (0 ≤ derivedPriority defaultPriority options →
        0 ≤ submitPriority priorityCount defaultPriority options) ∧
      (derivedPriority defaultPriority options < 0 →
        submitPriority priorityCount defaultPriority options =
          derivedPriority defaultPriority options) := by
  simp only [submitPriority]
  by_cases hgt : derivedPriority defaultPriority options > priorityCount - 1 <;>
    simp [hgt] <;> omega

/-- Witness for `submitPriority_clamped_above` at levels 10, default 5, and
an over-range supplied priority 42. -/
theorem submitPriority_clamped_above_witness :
    (1:Int) ≤ 10 ∧
      submitPriority 10 5 (Sum.inl (JsNumber.int 42)) ≤ 10 - 1 :=
  ⟨by decide, (submitPriority_clamped_above 10 5 (Sum.inl (JsNumber.int 42))
    (by decide)).1⟩

/-- C8: the `RateLimiter` constructor does not throw on non-positive
integer parameters — `maxConcurrency = 0`, or all three parameters
non-positive, are accepted — even though its own error message demands
positive integers; the validation tests `Number.isInteger` only. -/
theorem ctorThrows_accepts_nonpositive :
    ctorThrows (.int 0) (.int 1) (.int 1) = false ∧
      ctorThrows (.int (-3)) (.int (-1)) (.int 0) = false ∧
      ctorThrows .nonInt (.int 1) (.int 1) = true := by decide

/-- C2: for any failure `e` (transport or size-guard alike): with retry
budget `r > 0` the handler schedules a retry — budget decremented in place,
`retryInterval` waited, `_execute` re-invoked — and invokes neither the
callback nor the release handle; with budget 0 the callback receives the
error; neither the error nor the success path ever invokes `release`; and a
request whose every attempt fails runs `budget + 1` attempts before the
callback finally receives the error, with `release` never invoked. -/
theorem handler_retry_protocol (e : JsError) (r : Int)
    (retryInterval : Option Int) (hasCallback : Bool) (hr : 0 < r) :
    handlerOnError e (some r) retryInterval hasCallback =
        { invokedCallback := false
          callbackError := none
          scheduledRetry := true
          retriesAfter := some (r - 1)
          waitedMs := retryInterval
          invokedRelease := false
          threw := false } ∧
      handlerOnError e (some 0) retryInterval true =
        { invokedCallback := true
          callbackError := some e
          scheduledRetry := false
          retriesAfter := some 0
          waitedMs := none
          invokedRelease := false
          threw := false } ∧
      (handlerOnSuccess hasCallback).invokedRelease = false ∧
      ∀ budget : Nat,
        (failingRun e retryInterval true budget).1 = budget + 1 ∧
          (failingRun e retryInterval true budget).2 =
            { invokedCallback := true
              callbackError := some e
              scheduledRetry := false
              retriesAfter := some 0
              waitedMs := none
              invokedRelease := false
              threw := false } := by
  refine ⟨?_, ?_, ?_, ?_⟩
  · simp [handlerOnError, truthyRetries, hr]
  · simp [handlerOnError, truthyRetries]
  · cases hasCallback <;> simp [handlerOnSuccess]
  · intro budget
    induction budget with
    | zero => simp [failingRun, handlerOnError, truthyRetries]
    | succ b ih =>
      have hpos : (0:Int) < (b:Int) + 1 := by positivity
      simp only [failingRun, handlerOnError, truthyRetries, hpos,
        decide_eq_true_eq, if_pos]
      simpa using ih

/-- Witness for `handler_retry_protocol`: budget 2, interval 3000 ms; a
persistently failing request makes 3 attempts. -/
theorem handler_retry_protocol_witness :
    (0:Int) < 2 ∧
      (failingRun .streamTransportError (some 3000) true 2).1 = 3 ∧
      (handlerOnError .streamTransportError (some 2) (some 3000)
          true).invokedRelease = false :=
  ⟨by decide,
    ((handler_retry_protocol .streamTransportError 2 (some 3000) true
        (by decide)).2.2.2 2).1,
    by rw [(handler_retry_protocol .streamTransportError 2 (some 3000) true
        (by decide)).1]⟩

/-- C10: `send` deletes any configured `preRequest` hook before executing
— and `_execute` never invokes the hook when none is configured, on any
size-guard path — and defaults the retry budget to 0 when the caller did
not set one (the `?? 0` assignment runs before `setDefaults`, so the
crawler-level default cannot override it). -/
theorem send_strips_hook_and_zero_retries (user globals : SendOpts) :
    (sendTransform user globals).preRequest = none ∧
      (user.retries = none → (sendTransform user globals).retries = some 0) ∧
      ∀ (m : Option Int) (rom : Bool) (head : HeadOutcome),
        ExecAction.preRequestCall ∉ executeTrace m rom head none := by
  refine ⟨by simp [sendTransform], ?_, ?_⟩
  · intro h
    simp [sendTransform, setDefaultsOpts, h]
  · intro m rom head
    unfold executeTrace
    split
    · match m with
      | some mv =>
        cases hc : headCheck mv rom head <;>
          simp [hc, afterGuardTrace]
    · simp [afterGuardTrace]

/-- Witness for `send_strips_hook_and_zero_retries`: a caller that set no
retry budget but did set a hook gets budget 0 and no hook. -/
theorem send_strips_hook_witness :
    (sendTransform ⟨none, some (.abortWith 3), none⟩
        ⟨some 2, some .proceed, some false⟩).preRequest = none ∧
      (sendTransform ⟨none, some (.abortWith 3), none⟩
        ⟨some 2, some .proceed, some false⟩).retries = some 0 :=
  ⟨(send_strips_hook_and_zero_retries _ _).1,
    (send_strips_hook_and_zero_retries _ _).2.1 rfl⟩

/-- C5: with a positive ceiling `m`, a HEAD probe whose declared
Content-Length parses to `n > m` sends the attempt straight to the handler
with a `FILE_TOO_LARGE_HEAD` error whose message contains "exceeds limit";
no transfer is started and no hook runs for that attempt. -/
theorem head_reject_too_large (m n : Int) (rejectOnMissing : Bool)
    (pre : Option PreBehavior) (hm : 0 < m) (hn : m < n) :
    executeTrace (some m) rejectOnMissing (.success (.value n)) pre =
        [.headProbe, .handlerCall (some (.fileTooLargeHead n m))] ∧
      ExecAction.transferStart ∉
        executeTrace (some m) rejectOnMissing (.success (.value n)) pre ∧
      ∃ s t, errorMessage (.fileTooLargeHead n m) =
        s ++ "exceeds limit" ++ t := by
  have htrace : executeTrace (some m) rejectOnMissing (.success (.value n)) pre =
      [.headProbe, .handlerCall (some (.fileTooLargeHead n m))] := by
    unfold executeTrace
    simp [sizeActive, hm, headCheck, hn, lt_iff_lt_of_le_iff_le]
  refine ⟨htrace, by simp [htrace], ?_⟩
  refine ⟨"File size " ++ toString n ++ " (from HEAD Content-Length) ",
    " of " ++ toString m ++ " bytes", ?_⟩
  have key : ∀ y : String,
      " (from HEAD Content-Length) exceeds limit of " ++ y =
        " (from HEAD Content-Length) " ++ ("exceeds limit" ++ (" of " ++ y)) := by
    intro y
    rw [← String.append_assoc, ← String.append_assoc]
    congr 1
  simp only [errorMessage, String.append_assoc, key]

/-- Witness for `head_reject_too_large`: the spec's scenario — ceiling
10 MiB, declared length 15 MiB. -/
theorem head_reject_too_large_witness :
    (0:Int) < 10485760 ∧ (10485760:Int) < 15728640 ∧
      executeTrace (some 10485760) false (.success (.value 15728640)) none =
        [.headProbe,
          .handlerCall (some (.fileTooLargeHead 15728640 10485760))] :=
  ⟨by decide, by decide,
    (head_reject_too_large 10485760 15728640 false none (by decide)
      (by decide)).1⟩

/-- Folding chunk events whose total stays within the ceiling accumulates
the bytes without aborting. -/
theorem processEvents_data_under (m : Int) (chunks : List Nat)
    (s : StreamState) (hab : s.requestAborted = false)
    (hsum : (s.receivedBytes : Int) + (chunks.sum : Int) ≤ m) :
    processEvents m s (chunks.map .data) =
      { s with
        receivedBytes := s.receivedBytes + chunks.sum
        dataChunks := s.dataChunks ++ chunks } := by
  induction chunks generalizing s with
  | nil => simp [processEvents]
  | cons c rest ih =>
    have hsum' : (s.receivedBytes : Int) + (c : Int) + (rest.sum : Int) ≤ m := by
      rw [List.sum_cons, Nat.cast_add] at hsum
      omega
    have hle : ((s.receivedBytes + c : Nat) : Int) ≤ m := by
      rw [Nat.cast_add]
      omega
    have hstep : processEvent m s (.data c) =
        { s with
          receivedBytes := s.receivedBytes + c
          dataChunks := s.dataChunks ++ [c] } := by
      unfold processEvent
      rw [hab]
      simp only [Bool.false_eq_true, if_false]
      rw [if_neg (not_lt.mpr hle)]
    show processEvents m (processEvent m s (.data c)) (rest.map .data) = _
    rw [hstep,
      ih { s with
            receivedBytes := s.receivedBytes + c
            dataChunks := s.dataChunks ++ [c] }
        (by simpa using hab) (by show ((s.receivedBytes + c : Nat) : Int) + _ ≤ m; rw [Nat.cast_add]; omega)]
    simp [List.sum_cons, Nat.add_assoc]

/-- C9: when the HEAD probe itself fails, the pipeline fails open — the
attempt proceeds to the streaming transfer — and a transfer whose bytes
stay within the ceiling completes with a single success report carrying
the full body. -/
theorem head_failure_fails_open (m : Int) (rejectOnMissing : Bool)
    (hm : 0 < m) :
    executeTrace (some m) rejectOnMissing .failure none =
        [.headProbe, .transferStart] ∧
      ∀ (status : Int) (chunks : List Nat), (chunks.sum : Int) ≤ m →
        processEvents m initStream
            (.response .absent status :: (chunks.map .data ++ [.ended])) =
          { receivedBytes := chunks.sum
            dataChunks := chunks
            responseHeaders := some .absent
            statusCode := some status
            requestAborted := false
            destroyed := false
            reports := [.successReport chunks.sum (some .absent)
              (some status)] } := by
  constructor
  · simp [executeTrace, sizeActive, hm, headCheck, afterGuardTrace]
  · intro status chunks hsum
    have h1 : processEvent m initStream (.response .absent status) =
        { initStream with
          responseHeaders := some .absent
          statusCode := some status } := by
      simp [processEvent]
    show processEvents m (processEvent m initStream (.response .absent status))
        (chunks.map .data ++ [.ended]) = _
    rw [h1]
    unfold processEvents
    rw [List.foldl_append]
    have h2 := processEvents_data_under m chunks
      { initStream with
        responseHeaders := some .absent
        statusCode := some status } (by rfl) (by simpa [initStream] using hsum)
    unfold processEvents at h2
    rw [h2]
    simp [processEvent, initStream]

/-- Witness for `head_failure_fails_open`: ceiling 10 MiB, probe fails,
transfer of chunks 5 and 7 bytes completes with a 12-byte body. -/
theorem head_failure_fails_open_witness :
    (0:Int) < 10485760 ∧
      executeTrace (some 10485760) false .failure none =
        [.headProbe, .transferStart] ∧
      processEvents 10485760 initStream
          (.response .absent 200 :: (([5, 7] : List Nat).map .data ++ [.ended])) =
        { receivedBytes := 12
          dataChunks := [5, 7]
          responseHeaders := some .absent
          statusCode := some 200
          requestAborted := false
          destroyed := false
          reports := [.successReport 12 (some .absent) (some 200)] } :=
  ⟨by decide, (head_failure_fails_open 10485760 false (by decide)).1,
    (head_failure_fails_open 10485760 false (by decide)).2 200 [5, 7]
      (by decide)⟩

/-- C7 counterexample: with a positive size ceiling configured and a hook
that aborts, the HEAD probe is still issued (it runs before the hook), so
a network call is made for the request; and with the crawler's default
retry budget of 2, the handler schedules a retry for the hook's error
instead of surfacing it to the callback. -/
theorem preRequest_abort_claim_fails :
    executeTrace (some 10) false (.success .absent) (some (.abortWith 7)) =
        [.headProbe, .preRequestCall, .handlerCall (some (.userError 7))] ∧
      ExecAction.headProbe ∈
        executeTrace (some 10) false (.success .absent) (some (.abortWith 7)) ∧
      (handlerOnError (.userError 7) (some 2) (some 3000) true).scheduledRetry
          = true ∧
      (handlerOnError (.userError 7) (some 2) (some 3000)
          true).invokedCallback = false := by decide

/-- C7 amended: when the hook invokes its continuation with an error, the
error goes to the handler and no transfer is started; with no positive
ceiling configured, no network action at all precedes the hook, and with a
positive ceiling only the already-issued HEAD probe does; once the retry
budget is zero, the caller's callback receives exactly the hook's error,
with no retry and no release. -/
theorem preRequest_abort_amended (rejectOnMissing : Bool)
    (head : HeadOutcome) (id : Nat) (m : Int)
    (retryInterval : Option Int) (hm : 0 < m)
    (hpass : headCheck m rejectOnMissing head = none) :
    executeTrace none rejectOnMissing head (some (.abortWith id)) =
        [.preRequestCall, .handlerCall (some (.userError id))] ∧
      executeTrace (some m) rejectOnMissing head (some (.abortWith id)) =
        [.headProbe, .preRequestCall, .handlerCall (some (.userError id))] ∧
      ExecAction.transferStart ∉
        executeTrace (some m) rejectOnMissing head (some (.abortWith id)) ∧
      handlerOnError (.userError id) (some 0) retryInterval true =
        { invokedCallback := true
          callbackError := some (.userError id)
          scheduledRetry := false
          retriesAfter := some 0
          waitedMs := none
          invokedRelease := false
          threw := false } := by
  have h2 : executeTrace (some m) rejectOnMissing head (some (.abortWith id)) =
      [.headProbe, .preRequestCall, .handlerCall (some (.userError id))] := by
    simp [executeTrace, sizeActive, hm, hpass, afterGuardTrace]
  refine ⟨by simp [executeTrace, sizeActive, afterGuardTrace], h2,
    by simp [h2], ?_⟩
  simp [handlerOnError, truthyRetries]

/-- Witness for `preRequest_abort_amended`: ceiling 10, probe passed with
no declared length, hook error id 7 surfaced at budget 0. -/
theorem preRequest_abort_amended_witness :
    (0:Int) < 10 ∧
      headCheck 10 false (.success .absent) = none ∧
      executeTrace (some 10) false (.success .absent) (some (.abortWith 7)) =
        [.headProbe, .preRequestCall, .handlerCall (some (.userError 7))] :=
  ⟨by decide, by decide,
    (preRequest_abort_amended false (.success .absent) 7 10 none (by decide)
      (by decide)).2.1⟩

/-- Helper `abortRequest` preserves the stream invariant: a first call records the
single error report, a later call changes nothing. -/
theorem abortRequest_streamInv (s : StreamState) (e : JsError)
    (h : StreamInv s) : StreamInv (abortRequest s e) := by
  unfold abortRequest
  split
  · exact h
  · rename_i hab
    rw [Bool.not_eq_true] at hab
    refine ⟨by intro hfalse; simp at hfalse, ?_⟩
    have hrep : s.reports = [] := h.1 hab
    simp [hrep]

/-- Every single stream event leaves at most one `_handler` report in
place, given the stream invariant. -/
theorem processEvent_streamInv_aux (m : Int) (s : StreamState)
    (ev : StreamEvent) (h : StreamInv s) :
    (nonTerminal ev = true → StreamInv (processEvent m s ev)) ∧
      (processEvent m s ev).reports.length ≤ 1 := by
  cases ev with
  | response cl status =>
    have hi : StreamInv (processEvent m s (.response cl status)) := by
      cases cl with
      | value n =>
        simp only [processEvent]
        split
        · exact abortRequest_streamInv _ _ ⟨fun hf => h.1 hf, h.2⟩
        · exact ⟨fun hf => h.1 hf, h.2⟩
      | invalid => exact ⟨fun hf => h.1 hf, h.2⟩
      | absent => exact ⟨fun hf => h.1 hf, h.2⟩
    exact ⟨fun _ => hi, hi.2⟩
  | data c =>
    have hi : StreamInv (processEvent m s (.data c)) := by
      simp only [processEvent]
      split
      · exact h
      · rename_i hab
        rw [Bool.not_eq_true] at hab
        split
        · exact abortRequest_streamInv _ _ ⟨fun _ => h.1 hab, h.2⟩
        · exact ⟨fun _ => h.1 hab, h.2⟩
    exact ⟨fun _ => hi, hi.2⟩
  | progress t =>
    have hi : StreamInv (processEvent m s (.progress t)) := by
      simp only [processEvent]
      split
      · exact h
      · rename_i hab
        rw [Bool.not_eq_true] at hab
        split
        · exact abortRequest_streamInv _ _ ⟨fun _ => h.1 hab, h.2⟩
        · exact ⟨fun _ => h.1 hab, h.2⟩
    exact ⟨fun _ => hi, hi.2⟩
  | ended =>
    refine ⟨fun hnt => by simp [nonTerminal] at hnt, ?_⟩
    simp only [processEvent]
    split
    · exact h.2
    · rename_i hab
      rw [Bool.not_eq_true] at hab
      simp [h.1 hab]
  | failed =>
    refine ⟨fun hnt => by simp [nonTerminal] at hnt, ?_⟩
    simp only [processEvent]
    split
    · exact h.2
    · rename_i hab
      rw [Bool.not_eq_true] at hab
      simp [h.1 hab]

/-- Every single stream event leaves at most one `_handler` report in
place, given the stream invariant. -/
theorem processEvent_reports_le (m : Int) (s : StreamState)
    (ev : StreamEvent) (h : StreamInv s) :
    ((processEvent m s ev).reports).length ≤ 1 :=
  (processEvent_streamInv_aux m s ev h).2

/-- Non-terminal stream events preserve the stream invariant. -/
theorem processEvent_streamInv (m : Int) (s : StreamState)
    (ev : StreamEvent) (hnt : nonTerminal ev = true) (h : StreamInv s) :
    StreamInv (processEvent m s ev) :=
  (processEvent_streamInv_aux m s ev h).1 hnt

/-- Over any stream trace whose terminal event comes last, at most one
`_handler` report is ever produced. -/
theorem processEvents_reports_le (m : Int) (evs : List StreamEvent)
    (s : StreamState) (hwf : wellFormedStream evs = true)
    (h : StreamInv s) : ((processEvents m s evs).reports).length ≤ 1 := by
  induction evs generalizing s with
  | nil => exact h.2
  | cons ev rest ih =>
    cases rest with
    | nil => exact processEvent_reports_le m s ev h
    | cons r rs =>
      have hwf' : nonTerminal ev = true ∧
          wellFormedStream (r :: rs) = true := by
        have : wellFormedStream (ev :: r :: rs) =
            (nonTerminal ev && wellFormedStream (r :: rs)) := rfl
        rw [this] at hwf
        exact ⟨(Bool.and_eq_true _ _ ▸ hwf).1, (Bool.and_eq_true _ _ ▸ hwf).2⟩
      exact ih _ hwf'.2 (processEvent_streamInv m s ev hwf'.1 h)

/-- C6: the stream abort is single-fire and final. A repeated
`abortRequest` is a no-op; once `requestAborted` is set, every `data`,
`progress`, `end` and `error` event is ignored outright (no bytes
accumulated, no further handler call); each of the three exceed-the-ceiling
conditions — response-header length, accumulated chunk bytes, download
progress — sets the flag, destroys the stream and appends exactly one
error report; and over any stream trace whose terminal event comes last,
at most one handler report is ever produced. -/
theorem stream_abort_single_fire (m : Int) (s : StreamState) (e : JsError)
    (ev : StreamEvent) (n t : Int) (status : Int) (c : Nat)
    (evs : List StreamEvent) (hwf : wellFormedStream evs = true) :
    (s.requestAborted = true → abortRequest s e = s) ∧
      (s.requestAborted = true → ignoredWhenAborted ev = true →
        processEvent m s ev = s) ∧
      (s.requestAborted = false → m < n →
        processEvent m s (.response (.value n) status) =
          { s with
            responseHeaders := some (.value n)
            statusCode := some status
            requestAborted := true
            destroyed := true
            reports := s.reports ++
              [.errorReport (.fileTooLargeResponseHeader n m)] }) ∧
      (s.requestAborted = false → m < ((s.receivedBytes + c : Nat) : Int) →
        processEvent m s (.data c) =
          { s with
            receivedBytes := s.receivedBytes + c
            dataChunks := s.dataChunks ++ [c]
            requestAborted := true
            destroyed := true
            reports := s.reports ++
              [.errorReport
                (.fileTooLargeStream ((s.receivedBytes + c : Nat) : Int) m)] }) ∧
      (s.requestAborted = false → m < t →
        processEvent m s (.progress t) =
          { s with
            requestAborted := true
            destroyed := true
            reports := s.reports ++
              [.errorReport (.fileTooLargeStream t m)] }) ∧
      ((processEvents m initStream evs).reports).length ≤ 1 := by
  refine ⟨?_, ?_, ?_, ?_, ?_, ?_⟩
  · intro hab
    unfold abortRequest
    rw [if_pos hab]
  · intro hab hig
    cases ev with
    | response cl status' => simp [ignoredWhenAborted] at hig
    | data c' => simp only [processEvent]; rw [if_pos hab]
    | progress t' => simp only [processEvent]; rw [if_pos hab]
    | ended => simp only [processEvent]; rw [if_pos hab]
    | failed => simp only [processEvent]; rw [if_pos hab]
  · intro hab hgt
    simp only [processEvent]
    rw [if_pos hgt]
    unfold abortRequest
    simp [hab]
  · intro hab hgt
    simp only [processEvent]
    rw [if_neg (by simp [hab]), if_pos hgt]
    unfold abortRequest
    simp [hab]
  · intro hab hgt
    simp only [processEvent]
    rw [if_neg (by simp [hab]), if_pos hgt]
    unfold abortRequest
    simp [hab]
  · exact processEvents_reports_le m evs initStream hwf ⟨fun _ => rfl, by simp [initStream]⟩

/-- Witness for `stream_abort_single_fire`: a well-formed trace that
overruns a ceiling of 10 produces one report, and on an already-aborted
state a further data event is a no-op. -/
theorem stream_abort_single_fire_witness :
    wellFormedStream [.response .absent 200, .data 5, .data 9, .ended]
        = true ∧
      ((processEvents 10 initStream
          [.response .absent 200, .data 5, .data 9, .ended]).reports).length
        ≤ 1 ∧
      (abortRequest initStream .streamTransportError).requestAborted
          = true ∧
      ignoredWhenAborted (.data 3) = true ∧
      processEvent 10 (abortRequest initStream .streamTransportError)
          (.data 3) =
        abortRequest initStream .streamTransportError :=
  ⟨by decide,
    (stream_abort_single_fire 10 initStream .streamTransportError
      (.data 3) 0 0 200 3 _ (by decide)).2.2.2.2.2,
    by decide, by decide,
    (stream_abort_single_fire 10
        (abortRequest initStream .streamTransportError) .streamTransportError
        (.data 3) 0 0 200 3 [] (by decide)).2.1 (by decide) (by decide)⟩

end NodeCrawler
